import Mathlib

/-!
# Verification of the Snowflake table-migration engine

A shallow embedding of `migration-module.py` (the table migration engine:
`migrate_table`, `get_tables`, `migrate_all_tables`) together with proofs of
the specification's claims about it.

Modelling conventions:

* Database interaction is modelled by an explicit environment.  A `TableEnv`
  describes, for one table's migration run, which of the fallible database
  calls raise (each carries the textual description `str(e)` of the raised
  exception) and the wall-clock time the run takes; a `SourceTable` holds the
  data the source database serves for that table (its DDL text, its column
  list, and its rows, fixed for the run — i.e. no concurrent writers).
* SQL text is modelled as `List Char`; Python's `str.replace` is embedded as
  `pyReplace` with Python's exact semantics (left-to-right, non-overlapping,
  all occurrences).
* The copy loop of `migrate_table` is `copyLoop`: each round fetches
  `LIMIT batch_size OFFSET offset` from the fixed source row list, i.e.
  `(rows.drop offset).take batch_size`, inserts-and-commits it into the target
  on success, and advances `offset` by `batch_size`; the loop breaks on an
  empty fetch.  The outcome carries ghost observations (the translated DDL
  that was executed, the `(offset, size)` of every fetch) used only to state
  properties.
* `migrate_all_tables` submits one `migrate_table` task per catalog table to a
  thread pool and collects `future.result()` by iterating the
  `future_to_table` dict, whose iteration order is its insertion order, i.e.
  submission order.  The thread-completion order is an explicit `sched`
  parameter of the embedding; the collected output does not depend on it,
  exactly as in the code.  Exceptions raised by `get_tables` propagate
  (modelled by `Except.error`); `migrate_table` never raises (its `finally`
  block returns the result dict), so per-table faults can only surface inside
  the returned `MigrationResult`.
-/

/-- A row of table data, as fetched by `cursor.fetchall()`. -/
abbrev Row := List String

/-- The connection parameters of one side; only the `database` and `schema`
fields are ever read by the engine's SQL-building code. -/
structure ConnParams where
  database : String
  schema : String
deriving Repr, DecidableEq

/-- The qualifier string `f"{params['database']}.{params['schema']}"` used by
`migrate_table` for DDL rewriting, as a character list. -/
def qualChars (p : ConnParams) : List Char :=
  (p.database ++ "." ++ p.schema).data

/-- What the source database serves for one table during the run: the text
returned by `GET_DDL`, the `INFORMATION_SCHEMA` column list, and the table's
rows (fixed for the duration of the run — no concurrent writers). -/
structure SourceTable where
  ddl : List Char
  columns : List String
  rows : List Row
deriving Repr, DecidableEq

/-- The result dict built by `migrate_table`. -/
structure MigrationResult where
  table : String
  success : Bool
  rows_migrated : Nat
  error : Option String
  time_taken : Nat
deriving Repr, DecidableEq

/-- Fault injection for one table's migration: for each fallible database
call, `none` means the call succeeds and `some e` means it raises an exception
whose `str` is `e`.  `fetchErrAtRound`/`insertErrAtRound` are indexed by the
copy loop's round number (starting at 0); an insert error covers a failure of
either `executemany` or the following `commit` (in both cases the round's rows
are not committed).  `elapsed` is the rounded wall-clock duration recorded by
the `finally` block. -/
structure TableEnv where
  connectSourceErr : Option String
  connectTargetErr : Option String
  getDDLErr : Option String
  dropErr : Option String
  createErr : Option String
  getColumnsErr : Option String
  fetchErrAtRound : Nat → Option String
  insertErrAtRound : Nat → Option String
  elapsed : Nat

/-- The environment of a whole `migrate_all_tables` run: the outcome of the
catalog query made by `get_tables` and, per table name, the source data, the
fault injections, and the pre-existing target table contents (`none` = no such
table at the target). -/
structure Env where
  catalogErr : Option String
  catalog : List String
  sourceTable : String → SourceTable
  tableEnv : String → TableEnv
  initialTarget : String → Option (List Row)

/-- Python's `s.replace(pat, rep)`: left-to-right scan, replacing each
non-overlapping occurrence of `pat`; for the empty pattern, `rep` is inserted
before every character and at the end, exactly as in Python. -/
def pyReplace (pat rep s : List Char) : List Char :=
  match s with
  | [] => if pat = [] then rep else []
  | c :: rest =>
    if h : pat ≠ [] ∧ pat.isPrefixOf (c :: rest) then
      rep ++ pyReplace pat rep ((c :: rest).drop pat.length)
    else if pat = [] then
      rep ++ c :: pyReplace pat rep rest
    else
      c :: pyReplace pat rep rest
termination_by s.length
decreasing_by
  · simp only [List.length_drop, List.length_cons]
    have hp : 1 ≤ pat.length := by
      cases hpat : pat with
      | nil => exact absurd hpat h.1
      | cons a as => simp
    omega
  · simp
  · simp

/-- The outcome of the batched copy loop of `migrate_table`:
`err` is the textual description of the exception that aborted the loop
(`none` when the loop broke on an empty fetch), `total` is the final
`total_rows` counter (only committed rounds are counted, exactly as the code
updates it after each commit), `target` is the committed contents of the
target table, and `fetches` records the `(offset, number of returned rows)`
of every `fetchall` the loop performed, in order. -/
structure CopyOutcome where
  err : Option String
  total : Nat
  target : List Row
  fetches : List (Nat × Nat)
deriving Repr, DecidableEq

/-- The `while True` copy loop of `migrate_table`.  Each round: execute the
`SELECT ... LIMIT batch_size OFFSET offset` (may raise), break if it returned
no rows, otherwise `executemany` + `commit` the batch into the target (may
raise; nothing is committed then), and continue with `offset += batch_size`,
`total_rows += len(rows)`. -/
def copyLoop (tenv : TableEnv) (batch_size : Nat) (rows : List Row)
    (offset round total : Nat) (tgt : List Row) : CopyOutcome :=
  match tenv.fetchErrAtRound round with
  | some e => { err := some e, total := total, target := tgt, fetches := [] }
  | none =>
    if h : (rows.drop offset).take batch_size = [] then
      { err := none, total := total, target := tgt, fetches := [(offset, 0)] }
    else
      let fetched := (rows.drop offset).take batch_size
      match tenv.insertErrAtRound round with
      | some e =>
          { err := some e, total := total, target := tgt,
            fetches := [(offset, fetched.length)] }
      | none =>
          let rest := copyLoop tenv batch_size rows (offset + batch_size)
            (round + 1) (total + fetched.length) (tgt ++ fetched)
          { rest with fetches := (offset, fetched.length) :: rest.fetches }
termination_by rows.length - offset
decreasing_by
  have hb : batch_size ≠ 0 := by
    intro hb0
    exact h (by simp [hb0])
  have ho : offset < rows.length := by
    by_contra hle
    exact h (by simp [List.drop_eq_nil_of_le (Nat.le_of_not_lt hle)])
  omega

/-- The full outcome of one `migrate_table` call: the returned result dict,
the final state of the target table (`none` = the table does not exist at the
target), and two ghost observations — the translated `CREATE TABLE` statement
(`none` when the run failed before the translation happened) and the copy
loop's fetch trace. -/
structure MigrateOutcome where
  result : MigrationResult
  target : Option (List Row)
  translatedDDL : Option (List Char)
  fetches : List (Nat × Nat)
deriving Repr, DecidableEq

/-- `migrate_table(table, source_params, target_params, batch_size)` from
`migration-module.py`, step by step: connect to both sides, fetch the DDL via
`GET_DDL`, rewrite the source qualifier to the target qualifier with
`str.replace`, `DROP TABLE IF EXISTS` + `CREATE` at the target, fetch the
column list, then run the batched copy loop.  Any exception is caught and its
text stored in `result["error"]`; the `finally` block sets
`result["time_taken"]` and returns the result dict on every path, so the
function never raises. -/
def migrate_table (table : String) (src : SourceTable) (tenv : TableEnv)
    (source_params target_params : ConnParams) (batch_size : Nat)
    (tgt0 : Option (List Row)) : MigrateOutcome :=
  let base : MigrationResult :=
    { table := table, success := false, rows_migrated := 0, error := none,
      time_taken := tenv.elapsed }
  match tenv.connectSourceErr with
  | some e => { result := { base with error := some e }, target := tgt0,
                translatedDDL := none, fetches := [] }
  | none =>
  match tenv.connectTargetErr with
  | some e => { result := { base with error := some e }, target := tgt0,
                translatedDDL := none, fetches := [] }
  | none =>
  match tenv.getDDLErr with
  | some e => { result := { base with error := some e }, target := tgt0,
                translatedDDL := none, fetches := [] }
  | none =>
  let create_table_statement :=
    pyReplace (qualChars source_params) (qualChars target_params) src.ddl
  match tenv.dropErr with
  | some e => { result := { base with error := some e }, target := tgt0,
                translatedDDL := some create_table_statement, fetches := [] }
  | none =>
  match tenv.createErr with
  | some e => { result := { base with error := some e }, target := none,
                translatedDDL := some create_table_statement, fetches := [] }
  | none =>
  match tenv.getColumnsErr with
  | some e => { result := { base with error := some e }, target := some [],
                translatedDDL := some create_table_statement, fetches := [] }
  | none =>
  let c := copyLoop tenv batch_size src.rows 0 0 0 []
  match c.err with
  | some e =>
      { result := { base with error := some e, rows_migrated := c.total },
        target := some c.target,
        translatedDDL := some create_table_statement, fetches := c.fetches }
  | none =>
      { result := { base with success := true, rows_migrated := c.total },
        target := some c.target,
        translatedDDL := some create_table_statement, fetches := c.fetches }

/-- `get_tables(conn_params)`: queries the catalog of the params' schema and
returns the table names; a failure is re-raised as
`Exception(f"Error fetching tables: {e}")`. -/
def get_tables (env : Env) (conn_params : ConnParams) :
    Except String (List String) :=
  match env.catalogErr with
  | some e => Except.error ("Error fetching tables: " ++ e)
  | none => Except.ok env.catalog

/-- `migrate_all_tables(source_params, target_params, batch_size, max_workers)`:
fetches the catalog via `get_tables` (whose exception propagates), submits one
`migrate_table` task per table to a `ThreadPoolExecutor(max_workers)` building
the `future_to_table` dict, then appends `future.result()` for each future in
dict-iteration order — which is insertion order, i.e. submission order, i.e.
catalog order.  `sched` models the order in which the pool's threads happen to
complete the tasks; since each task's value depends only on its own arguments
and the dict is iterated in insertion order, the collected list does not
depend on `sched` (nor on `max_workers`, which only bounds parallelism). -/
def migrate_all_tables (env : Env) (source_params target_params : ConnParams)
    (batch_size : Nat) (max_workers : Nat) (sched : List Nat) :
    Except String (List MigrationResult) :=
  match get_tables env source_params with
  | Except.error e => Except.error e
  | Except.ok tables =>
      Except.ok (tables.map fun t =>
        (migrate_table t (env.sourceTable t) (env.tableEnv t) source_params
          target_params batch_size (env.initialTarget t)).result)

/-! ## Specification-side apparatus -/

/-- Python's `s.split(pat)` for a nonempty separator `pat`: the maximal
pattern-free segments of `s`, scanning left to right.  Used only to state
what `pyReplace` does (Python's `s.replace(old, new)` coincides with
`new.join(s.split(old))`); the code itself is embedded by `pyReplace`. -/
def pySplit (pat s : List Char) : List (List Char) :=
  match s with
  | [] => [[]]
  | c :: rest =>
    if h : pat ≠ [] ∧ pat.isPrefixOf (c :: rest) then
      [] :: pySplit pat ((c :: rest).drop pat.length)
    else
      match pySplit pat rest with
      | [] => [[c]]
      | seg :: segs => (c :: seg) :: segs
termination_by s.length
decreasing_by
  · simp only [List.length_drop, List.length_cons]
    have hp : 1 ≤ pat.length := by
      cases hpat : pat with
      | nil => exact absurd hpat h.1
      | cons a as => simp
    omega
  · simp

/-- `sep.join(xs)`: the segments of `xs` glued with `sep` in between. -/
def joinSep (sep : List Char) : List (List Char) → List Char
  | [] => []
  | [x] => x
  | x :: y :: rest => x ++ sep ++ joinSep sep (y :: rest)

/-- The sizes of the non-empty rounds the copy loop performs over `R` rows at
batch size `B`: take `min B R` rows, then go on with the remaining `R - B`.
Used only to state the batch-boundary claim about `migrate_table`. -/
def roundSizes (B R : Nat) : List Nat :=
  if h : R = 0 ∨ B = 0 then [] else min B R :: roundSizes B (R - B)
termination_by R
decreasing_by
  push_neg at h
  omega

/-- Modelled from the spec: §6's
`MigrateAll(tableNames, sourceProfile, targetProfile, batchSize, maxWorkers)`,
which "runs the orchestrator over the given tables" — the per-table migration
is run exactly over the caller-supplied `tableNames`.  Stated from the spec's
words for comparison with the code's `migrate_all_tables`, whose signature has
no table-name parameter. -/
def migrateAllSpec (tableNames : List String) (env : Env)
    (source_params target_params : ConnParams) (batch_size : Nat) :
    List MigrationResult :=
  tableNames.map fun t =>
    (migrate_table t (env.sourceTable t) (env.tableEnv t) source_params
      target_params batch_size (env.initialTarget t)).result

/-! ## Concrete fixtures for the witnesses and counterexamples -/

/-- A table environment in which every database call succeeds. -/
def tenvClean : TableEnv :=
  { connectSourceErr := none, connectTargetErr := none, getDDLErr := none,
    dropErr := none, createErr := none, getColumnsErr := none,
    fetchErrAtRound := fun _ => none, insertErrAtRound := fun _ => none,
    elapsed := 0 }

/-- A table environment whose source connection attempt raises. -/
def tenvBoom : TableEnv :=
  { tenvClean with connectSourceErr := some "250001: Could not connect" }

/-- The source connection parameters used by the fixtures. -/
def spC : ConnParams := { database := "SD", schema := "SS" }

/-- The target connection parameters used by the fixtures. -/
def tpC : ConnParams := { database := "TD", schema := "TS" }

/-- The `orders` table of the spec's §8 example scenario: 5 rows. -/
def srcOrders : SourceTable :=
  { ddl := "CREATE TABLE SD.SS.ORDERS(X INT)".data, columns := ["X"],
    rows := [["o1"], ["o2"], ["o3"], ["o4"], ["o5"]] }

/-- The `customers` table of the spec's §8 example scenario: 0 rows. -/
def srcCustomers : SourceTable :=
  { ddl := "CREATE TABLE SD.SS.CUSTOMERS(Y INT)".data, columns := ["Y"],
    rows := [] }

/-- A table whose fetched definition does not contain the source qualifier
`SD.SS` anywhere. -/
def srcNoQual : SourceTable :=
  { ddl := "CREATE TABLE A.B.T(X INT)".data, columns := ["X"], rows := [] }

/-- A table environment whose round-1 `executemany`/`commit` raises, so only
round 0 commits. -/
def tenvFail : TableEnv :=
  { tenvClean with
    insertErrAtRound := fun r =>
      if r = 1 then some "001003: SQL compilation error" else none }

/-- A table environment whose `DROP TABLE IF EXISTS` raises, so the run
fails in the DDL phase before the target table is touched. -/
def tenvDrop : TableEnv :=
  { tenvClean with dropErr := some "002003: SQL compilation error" }

/-- A run environment with catalog `["ORDERS", "CUSTOMERS"]` in which the
migration of `CUSTOMERS` raises on connecting to the source while `ORDERS`
migrates cleanly. -/
def envW : Env :=
  { catalogErr := none, catalog := ["ORDERS", "CUSTOMERS"],
    sourceTable := fun t => if t = "ORDERS" then srcOrders else srcCustomers,
    tableEnv := fun t => if t = "ORDERS" then tenvClean else tenvBoom,
    initialTarget := fun _ => none }

/-- A fault-free run environment over the spec's §8 example scenario. -/
def envOk : Env :=
  { catalogErr := none, catalog := ["ORDERS", "CUSTOMERS"],
    sourceTable := fun t => if t = "ORDERS" then srcOrders else srcCustomers,
    tableEnv := fun _ => tenvClean,
    initialTarget := fun _ => none }


/-- The qualifier string always contains the separating dot, hence is
nonempty. -/
theorem qualChars_ne_nil (p : ConnParams) : qualChars p ≠ [] := by
  simp only [qualChars, String.data_append]
  intro h
  rcases List.append_eq_nil.mp h with ⟨h1, -⟩
  rcases List.append_eq_nil.mp h1 with ⟨-, h3⟩
  exact absurd h3 (by decide)

/-- `pySplit` never returns the empty segment list. -/
theorem pySplit_ne_nil (pat s : List Char) : pySplit pat s ≠ [] := by
  cases s with
  | nil => simp [pySplit]
  | cons c rest =>
    rw [pySplit]
    split
    · simp
    · split <;> simp

/-- The first segment of `pySplit pat s` is a prefix of `s`. -/
theorem pySplit_head_prefix (pat : List Char) :
    ∀ s seg segs, pySplit pat s = seg :: segs → seg <+: s := by
  intro s
  induction s using pySplit.induct pat with
  | case1 =>
    intro seg segs h
    simp [pySplit] at h
    simp [h.1]
  | case2 c rest h ih =>
    intro seg segs heq
    rw [pySplit, dif_pos h] at heq
    cases heq
    exact List.nil_prefix
  | case3 c rest h hnil ih =>
    exact absurd hnil (pySplit_ne_nil pat rest)
  | case4 c rest h s0 ss hrest ih =>
    intro seg segs heq
    rw [pySplit, dif_neg h, hrest] at heq
    cases heq
    exact (List.cons_prefix_cons).mpr ⟨rfl, ih s0 ss hrest⟩

/-- Glueing a list whose head got one more leading character. -/
theorem joinSep_cons_head (sep : List Char) (c : Char) (x : List Char)
    (xs : List (List Char)) :
    joinSep sep ((c :: x) :: xs) = c :: joinSep sep (x :: xs) := by
  cases xs with
  | nil => rfl
  | cons y ys => simp [joinSep]

/-- Re-glueing the segments of `pySplit pat s` with `pat` itself recovers
`s`: the segments are exactly what stands between the occurrences of `pat`. -/
theorem joinSep_pySplit (pat : List Char) (hpat : pat ≠ []) :
    ∀ s, joinSep pat (pySplit pat s) = s := by
  intro s
  induction s using pySplit.induct pat with
  | case1 => simp [pySplit, joinSep]
  | case2 c rest h ih =>
    rw [pySplit, dif_pos h]
    cases hd : pySplit pat ((c :: rest).drop pat.length) with
    | nil => exact absurd hd (pySplit_ne_nil pat _)
    | cons t ts =>
      rw [hd] at ih
      have : joinSep pat ([] :: t :: ts) = pat ++ joinSep pat (t :: ts) := by
        simp [joinSep]
      rw [this, ih]
      have hpre : pat <+: (c :: rest) := List.isPrefixOf_iff_prefix.mp h.2
      exact List.prefix_iff_eq_append.mp hpre
  | case3 c rest h hnil ih =>
    exact absurd hnil (pySplit_ne_nil pat rest)
  | case4 c rest h s0 ss hrest ih =>
    rw [pySplit, dif_neg h, hrest]
    rw [hrest] at ih
    rw [joinSep_cons_head, ih]

/-- Python's `s.replace(pat, rep)` (for nonempty `pat`) glues the
pattern-free segments of `s` with `rep`: every occurrence of `pat` is
replaced by `rep` and everything else is carried through verbatim. -/
theorem pyReplace_eq_joinSep (pat rep : List Char) (hpat : pat ≠ []) :
    ∀ s, pyReplace pat rep s = joinSep rep (pySplit pat s) := by
  intro s
  induction s using pySplit.induct pat with
  | case1 => simp [pySplit, pyReplace, joinSep, hpat]
  | case2 c rest h ih =>
    rw [pySplit, dif_pos h, pyReplace, dif_pos h]
    cases hd : pySplit pat ((c :: rest).drop pat.length) with
    | nil => exact absurd hd (pySplit_ne_nil pat _)
    | cons t ts =>
      rw [hd] at ih
      have : joinSep rep ([] :: t :: ts) = rep ++ joinSep rep (t :: ts) := by
        simp [joinSep]
      rw [this, ih]
  | case3 c rest h hnil ih =>
    exact absurd hnil (pySplit_ne_nil pat rest)
  | case4 c rest h s0 ss hrest ih =>
    rw [pySplit, dif_neg h, hrest]
    rw [hrest] at ih
    rw [joinSep_cons_head]
    rw [pyReplace, dif_neg h, if_neg hpat]
    rw [ih]

/-- No segment produced by `pySplit` contains an occurrence of the
pattern: the substitution really hits every occurrence. -/
theorem pySplit_not_infix (pat : List Char) (hpat : pat ≠ []) :
    ∀ s, ∀ seg ∈ pySplit pat s, ¬ pat <:+: seg := by
  intro s
  induction s using pySplit.induct pat with
  | case1 =>
    intro seg hseg hinf
    simp [pySplit] at hseg
    subst hseg
    exact hpat (List.eq_nil_of_infix_nil hinf)
  | case2 c rest h ih =>
    intro seg hseg hinf
    rw [pySplit, dif_pos h] at hseg
    rcases List.mem_cons.mp hseg with hhd | htl
    · subst hhd
      exact hpat (List.eq_nil_of_infix_nil hinf)
    · exact ih seg htl hinf
  | case3 c rest h hnil ih =>
    exact absurd hnil (pySplit_ne_nil pat rest)
  | case4 c rest h s0 ss hrest ih =>
    intro seg hseg hinf
    rw [pySplit, dif_neg h, hrest] at hseg
    rcases List.mem_cons.mp hseg with hhd | htl
    · subst hhd
      rcases List.infix_cons_iff.mp hinf with hpre | hinf0
      · have hs0 : s0 <+: rest := pySplit_head_prefix pat rest s0 ss hrest
        have : pat <+: (c :: rest) :=
          hpre.trans ((List.cons_prefix_cons).mpr ⟨rfl, hs0⟩)
        exact h ⟨hpat, List.isPrefixOf_iff_prefix.mpr this⟩
      · exact ih s0 (by rw [hrest]; exact List.mem_cons_self s0 ss) hinf0
    · exact ih seg (by rw [hrest]; exact List.mem_cons_of_mem s0 htl) hinf

/-- When the pattern occurs nowhere in `s`, Python's `replace` is the
identity: nothing signals the no-op. -/
theorem pyReplace_of_not_infix (pat rep : List Char) (hpat : pat ≠ []) :
    ∀ s, ¬ pat <:+: s → pyReplace pat rep s = s := by
  intro s
  induction s using pySplit.induct pat with
  | case1 =>
    intro hinf
    rw [pyReplace, if_neg hpat]
  | case2 c rest h ih =>
    intro hinf
    exact absurd (List.isPrefixOf_iff_prefix.mp h.2).isInfix hinf
  | case3 c rest h hnil ih =>
    exact absurd hnil (pySplit_ne_nil pat rest)
  | case4 c rest h s0 ss hrest ih =>
    intro hinf
    rw [pyReplace, dif_neg h, if_neg hpat]
    rw [ih fun hr => hinf (List.infix_cons hr)]

/-! ## Properties of the copy loop -/

/-- A copy loop that ends without an exception has walked through the whole
remaining source: it committed every remaining row into the target and
counted all of them. -/
theorem copyLoop_complete (tenv : TableEnv) (batch_size : Nat)
    (rows : List Row) (hB : 1 ≤ batch_size) :
    ∀ offset round total tgt,
      (copyLoop tenv batch_size rows offset round total tgt).err = none →
      (copyLoop tenv batch_size rows offset round total tgt).total
          = total + (rows.drop offset).length ∧
      (copyLoop tenv batch_size rows offset round total tgt).target
          = tgt ++ rows.drop offset := by
  intro offset round total tgt
  induction offset, round, total, tgt using copyLoop.induct tenv batch_size rows with
  | case1 offset round total tgt e hf =>
    intro herr
    rw [copyLoop, hf] at herr
    simp at herr
  | case2 offset round total tgt hf htake =>
    intro herr
    have hdrop : rows.drop offset = [] := by
      rcases List.take_eq_nil_iff.mp htake with h | h
      · omega
      · exact h
    rw [copyLoop, hf, dif_pos htake]
    simp [hdrop]
  | case3 offset round total tgt hf htake e hins =>
    intro herr
    rw [copyLoop, hf, dif_neg htake] at herr
    simp only [hins] at herr
    simp at herr
  | case4 offset round total tgt hf htake hx hins ih =>
    intro herr
    have hxdef : hx = (rows.drop offset).take batch_size := rfl
    rw [hxdef] at ih
    rw [copyLoop, hf, dif_neg htake] at herr ⊢
    simp only [hins] at herr ⊢
    have hrec := ih (by simpa using herr)
    rcases hrec with ⟨ht, htg⟩
    constructor
    · simp only [ht]
      have hsplit : ((rows.drop offset).take batch_size).length
          + (rows.drop (offset + batch_size)).length
          = (rows.drop offset).length := by
        have hdd : rows.drop (offset + batch_size)
            = (rows.drop offset).drop batch_size := by
          rw [List.drop_drop, Nat.add_comm]
        rw [hdd, List.length_take, List.length_drop, List.length_drop,
          List.length_drop]
        omega
      omega
    · simp only [htg]
      have hdd : rows.drop (offset + batch_size)
          = (rows.drop offset).drop batch_size := by
        rw [List.drop_drop, Nat.add_comm]
      rw [hdd, List.append_assoc, List.take_append_drop]

/-- A copy loop whose rounds `0..k-1` all succeed on non-empty batches and
whose round `k` raises (on the fetch, or on the insert/commit of a non-empty
batch) aborts with that round's error, having committed exactly the first
`k * batch_size` remaining rows, and having counted exactly those. -/
theorem copyLoop_fail_at (tenv : TableEnv) (batch_size : Nat)
    (rows : List Row) (e : String) (hB : 1 ≤ batch_size) :
    ∀ k offset round total tgt,
      (∀ j, j < k → tenv.fetchErrAtRound (round + j) = none
          ∧ tenv.insertErrAtRound (round + j) = none) →
      (∀ j, j < k → offset + j * batch_size < rows.length) →
      (tenv.fetchErrAtRound (round + k) = some e ∨
        (tenv.fetchErrAtRound (round + k) = none
          ∧ tenv.insertErrAtRound (round + k) = some e
          ∧ offset + k * batch_size < rows.length)) →
      (copyLoop tenv batch_size rows offset round total tgt).err = some e ∧
      (copyLoop tenv batch_size rows offset round total tgt).total
          = total + min (k * batch_size) (rows.length - offset) ∧
      (copyLoop tenv batch_size rows offset round total tgt).target
          = tgt ++ (rows.drop offset).take (k * batch_size) := by
  intro k
  induction k with
  | zero =>
    intro offset round total tgt hclean hbound hfail
    rcases hfail with hf | ⟨hf, hins, hlt⟩
    · rw [Nat.add_zero] at hf
      rw [copyLoop, hf]
      simp
    · rw [Nat.add_zero] at hf hins
      rw [Nat.zero_mul, Nat.add_zero] at hlt
      have htake : (rows.drop offset).take batch_size ≠ [] := by
        intro hc
        rcases List.take_eq_nil_iff.mp hc with h | h
        · omega
        · rw [List.drop_eq_nil_iff] at h
          omega
      rw [copyLoop, hf, dif_neg htake]
      simp only [hins]
      simp
  | succ k ih =>
    intro offset round total tgt hclean hbound hfail
    have h0 := hclean 0 (Nat.succ_pos k)
    rw [Nat.add_zero] at h0
    have hoff : offset < rows.length := by
      have := hbound 0 (Nat.succ_pos k)
      simpa using this
    have htake : (rows.drop offset).take batch_size ≠ [] := by
      intro hc
      rcases List.take_eq_nil_iff.mp hc with h | h
      · omega
      · rw [List.drop_eq_nil_iff] at h
        omega
    rw [copyLoop, h0.1, dif_neg htake]
    simp only [h0.2]
    have hclean2 : ∀ j, j < k → tenv.fetchErrAtRound (round + 1 + j) = none
        ∧ tenv.insertErrAtRound (round + 1 + j) = none := by
      intro j hj
      have := hclean (j + 1) (by omega)
      rwa [show round + (j + 1) = round + 1 + j by omega] at this
    have hbound2 : ∀ j, j < k →
        offset + batch_size + j * batch_size < rows.length := by
      intro j hj
      have := hbound (j + 1) (by omega)
      rwa [Nat.succ_mul, show offset + (j * batch_size + batch_size)
        = offset + batch_size + j * batch_size by omega] at this
    have hfail2 : tenv.fetchErrAtRound (round + 1 + k) = some e ∨
        (tenv.fetchErrAtRound (round + 1 + k) = none
          ∧ tenv.insertErrAtRound (round + 1 + k) = some e
          ∧ offset + batch_size + k * batch_size < rows.length) := by
      rcases hfail with hf | ⟨hf, hins, hlt⟩
      · left
        rwa [show round + (k + 1) = round + 1 + k by omega] at hf
      · right
        rw [show round + (k + 1) = round + 1 + k by omega] at hf hins
        rw [Nat.succ_mul] at hlt
        exact ⟨hf, hins, by omega⟩
    have hrec := ih (offset + batch_size) (round + 1)
      (total + ((rows.drop offset).take batch_size).length)
      (tgt ++ (rows.drop offset).take batch_size) hclean2 hbound2 hfail2
    rcases hrec with ⟨he, ht, htg⟩
    refine ⟨by simpa using he, ?_, ?_⟩
    · simp only [ht]
      rw [List.length_take, List.length_drop]
      rw [Nat.succ_mul]
      have hlen : (rows.length - (offset + batch_size))
          = rows.length - offset - batch_size := by omega
      rw [hlen]
      omega
    · simp only [htg]
      have hdd : rows.drop (offset + batch_size)
          = (rows.drop offset).drop batch_size := by
        rw [List.drop_drop, Nat.add_comm]
      rw [hdd, List.append_assoc, Nat.succ_mul, Nat.add_comm (k * batch_size),
        List.take_add]

/-- In a copy loop none of whose rounds raises, the fetched batch sizes are
exactly `roundSizes` of the remaining row count followed by the single empty
fetch that terminates the loop, and the fetch offsets climb from `offset` in
steps of `batch_size`. -/
theorem copyLoop_clean_fetches (tenv : TableEnv) (batch_size : Nat)
    (rows : List Row) (hB : 1 ≤ batch_size)
    (hclean : ∀ r, tenv.fetchErrAtRound r = none
        ∧ tenv.insertErrAtRound r = none) :
    ∀ offset round total tgt,
      (copyLoop tenv batch_size rows offset round total tgt).fetches.map
          Prod.snd
        = roundSizes batch_size ((rows.drop offset).length) ++ [0] ∧
      (copyLoop tenv batch_size rows offset round total tgt).fetches.map
          Prod.fst
        = (List.range
            ((roundSizes batch_size ((rows.drop offset).length)).length + 1)).map
            (fun i => offset + i * batch_size) := by
  intro offset round total tgt
  induction offset, round, total, tgt using copyLoop.induct tenv batch_size rows with
  | case1 offset round total tgt e hf =>
    exact absurd hf (by simp [(hclean round).1])
  | case2 offset round total tgt hf htake =>
    have hdrop : rows.drop offset = [] := by
      rcases List.take_eq_nil_iff.mp htake with h | h
      · omega
      · exact h
    rw [copyLoop, hf, dif_pos htake]
    rw [hdrop]
    simp [roundSizes, List.range_succ]
  | case3 offset round total tgt hf htake e hins =>
    exact absurd hins (by simp [(hclean round).2])
  | case4 offset round total tgt hf htake hx hins ih =>
    have hxdef : hx = (rows.drop offset).take batch_size := rfl
    rw [hxdef] at ih
    have hL : 1 ≤ (rows.drop offset).length := by
      rcases Nat.eq_zero_or_pos (rows.drop offset).length with h | h
      · exact absurd (by simp [List.eq_nil_of_length_eq_zero h]) htake
      · exact h
    have hL2 : (rows.drop (offset + batch_size)).length
        = (rows.drop offset).length - batch_size := by
      rw [List.length_drop, List.length_drop]
      omega
    have hround : roundSizes batch_size ((rows.drop offset).length)
        = min batch_size ((rows.drop offset).length)
          :: roundSizes batch_size ((rows.drop offset).length - batch_size) := by
      rw [roundSizes]
      rw [dif_neg (by omega)]
    rw [copyLoop, hf, dif_neg htake]
    simp only [hins]
    rcases ih with ⟨ihs, ihf⟩
    constructor
    · simp only [List.map_cons, ihs, hL2, hround]
      simp [List.length_take]
    · simp only [List.map_cons, ihf, hL2, hround, List.length_cons]
      conv_rhs => rw [List.range_succ_eq_map]
      simp only [List.map_cons, List.map_map]
      congr 1
      · simp
      · apply List.map_congr_left
        intro i hi
        simp only [Function.comp_apply, Nat.succ_mul, Nat.succ_eq_add_one]
        omega

/-- `roundSizes` is nonempty exactly when there are rows left (at positive
batch size). -/
theorem roundSizes_ne_nil (batch_size R : Nat) (hB : 1 ≤ batch_size)
    (hR : R ≠ 0) : roundSizes batch_size R ≠ [] := by
  rw [roundSizes, dif_neg (by omega)]
  simp

/-- There are `⌈R / B⌉` non-empty rounds. -/
theorem roundSizes_length (batch_size : Nat) (hB : 1 ≤ batch_size) :
    ∀ R, (roundSizes batch_size R).length = (R + batch_size - 1) / batch_size := by
  intro R
  induction R using Nat.strong_induction_on with
  | _ R ih =>
    rcases Nat.eq_zero_or_pos R with hR | hR
    · subst hR
      rw [roundSizes, dif_pos (by omega)]
      simp only [List.length_nil]
      symm
      apply Nat.div_eq_of_lt
      omega
    · rw [roundSizes, dif_neg (by omega)]
      simp only [List.length_cons]
      rw [ih (R - batch_size) (by omega)]
      rcases Nat.lt_or_ge R batch_size with hlt | hge
      · have h1 : R - batch_size = 0 := by omega
        rw [h1]
        rw [Nat.div_eq_of_lt (by omega)]
        have h2 : R + batch_size - 1 = (R - 1) + batch_size := by omega
        rw [h2, Nat.add_div_right _ (by omega)]
        rw [Nat.div_eq_of_lt (by omega)]
      · have h2 : R + batch_size - 1 = (R - batch_size + batch_size - 1)
            + batch_size := by omega
        rw [h2, Nat.add_div_right _ (by omega)]

/-- Every non-empty round has between 1 and `B` rows. -/
theorem roundSizes_mem_bounds (batch_size : Nat) (hB : 1 ≤ batch_size) :
    ∀ R, ∀ x ∈ roundSizes batch_size R, 1 ≤ x ∧ x ≤ batch_size := by
  intro R
  induction R using Nat.strong_induction_on with
  | _ R ih =>
    intro x hx
    rcases Nat.eq_zero_or_pos R with hR | hR
    · rw [hR, roundSizes, dif_pos (by omega)] at hx
      simp at hx
    · rw [roundSizes, dif_neg (by omega)] at hx
      rcases List.mem_cons.mp hx with h | h
      · subst h
        omega
      · exact ih (R - batch_size) (by omega) x h

/-- The last non-empty round has `R mod B` rows, or `B` when `B` divides
`R`. -/
theorem roundSizes_getLast (batch_size : Nat) (hB : 1 ≤ batch_size) :
    ∀ R, R ≠ 0 → (roundSizes batch_size R).getLast?
      = some (if R % batch_size = 0 then batch_size else R % batch_size) := by
  intro R
  induction R using Nat.strong_induction_on with
  | _ R ih =>
    intro hR
    rw [roundSizes, dif_neg (by omega)]
    rcases Nat.lt_or_ge R batch_size with hlt | hge
    · have h1 : R - batch_size = 0 := by omega
      rw [h1, roundSizes, dif_pos (by omega)]
      rw [Nat.mod_eq_of_lt hlt]
      simp only [List.getLast?_singleton, Option.some.injEq]
      rw [if_neg hR]
      omega
    · rcases Nat.eq_zero_or_pos (R - batch_size) with h0 | h0
      · have hRB : R = batch_size := by omega
        subst hRB
        rw [h0, roundSizes, dif_pos (by omega)]
        simp [Nat.mod_self]
      · cases hrs : roundSizes batch_size (R - batch_size) with
        | nil => exact absurd hrs (roundSizes_ne_nil _ _ hB (by omega))
        | cons y ys =>
          rw [List.getLast?_cons_cons]
          rw [← hrs, ih (R - batch_size) (by omega) (by omega)]
          have hmod : (R - batch_size) % batch_size = R % batch_size := by
            conv_rhs => rw [show R = (R - batch_size) + batch_size by omega]
            rw [Nat.add_mod_right]
          rw [hmod]

/-- The copy loop counts exactly the rows it appends to the target. -/
theorem copyLoop_count (tenv : TableEnv) (batch_size : Nat) (rows : List Row) :
    ∀ offset round total tgt,
      (copyLoop tenv batch_size rows offset round total tgt).total + tgt.length
        = (copyLoop tenv batch_size rows offset round total tgt).target.length
            + total := by
  intro offset round total tgt
  induction offset, round, total, tgt using copyLoop.induct tenv batch_size rows with
  | case1 offset round total tgt e hf =>
    rw [copyLoop]
    simp [hf]
    omega
  | case2 offset round total tgt hf htake =>
    rw [copyLoop]
    simp [hf, htake]
    omega
  | case3 offset round total tgt hf htake e hins =>
    rw [copyLoop]
    simp [hf, htake, hins]
    omega
  | case4 offset round total tgt hf htake hx hins ih =>
    have hxdef : hx = (rows.drop offset).take batch_size := rfl
    rw [hxdef] at ih
    rw [copyLoop, hf, dif_neg htake]
    simp only [hins]
    simp only [List.length_append, List.length_take] at ih ⊢
    omega

/-- The copy loop never counts more rows than remain in the source. -/
theorem copyLoop_total_le (tenv : TableEnv) (batch_size : Nat)
    (rows : List Row) :
    ∀ offset round total tgt,
      (copyLoop tenv batch_size rows offset round total tgt).total
        ≤ total + (rows.drop offset).length := by
  intro offset round total tgt
  induction offset, round, total, tgt using copyLoop.induct tenv batch_size rows with
  | case1 offset round total tgt e hf =>
    rw [copyLoop, hf]
    simp
  | case2 offset round total tgt hf htake =>
    rw [copyLoop, hf, dif_pos htake]
    simp
  | case3 offset round total tgt hf htake e hins =>
    rw [copyLoop, hf, dif_neg htake]
    simp only [hins]
    simp
  | case4 offset round total tgt hf htake hx hins ih =>
    have hxdef : hx = (rows.drop offset).take batch_size := rfl
    rw [hxdef] at ih
    rw [copyLoop, hf, dif_neg htake]
    simp only [hins]
    have hlen : (rows.drop (offset + batch_size)).length
        = (rows.drop offset).length - batch_size := by
      rw [List.length_drop, List.length_drop]
      omega
    rw [hlen] at ih
    have htl : ((rows.drop offset).take batch_size).length
        = min batch_size ((rows.drop offset).length) := by
      rw [List.length_take]
    simp only [htl] at ih
    simp only [List.length_take] at ih ⊢
    omega

/-! ## Properties of `migrate_table` -/

/-- The result dict reports success exactly when no error text was
captured. -/
theorem migrate_table_success_iff (t : String) (src : SourceTable)
    (tenv : TableEnv) (sp tp : ConnParams) (batch_size : Nat)
    (tgt0 : Option (List Row)) :
    ((migrate_table t src tenv sp tp batch_size tgt0).result.success = true
      ↔ (migrate_table t src tenv sp tp batch_size tgt0).result.error
          = none) := by
  unfold migrate_table
  repeat' split
  all_goals try simp
  all_goals cases h : (copyLoop tenv batch_size src.rows 0 0 0 []).err <;> simp [h]

/-- The `finally` block sets `time_taken` on every exit path. -/
theorem migrate_table_time (t : String) (src : SourceTable) (tenv : TableEnv)
    (sp tp : ConnParams) (batch_size : Nat) (tgt0 : Option (List Row)) :
    (migrate_table t src tenv sp tp batch_size tgt0).result.time_taken
      = tenv.elapsed := by
  unfold migrate_table
  repeat' split
  all_goals try simp
  all_goals cases h : (copyLoop tenv batch_size src.rows 0 0 0 []).err <;> simp [h]

/-- The result dict always carries the migrated table's name. -/
theorem migrate_table_name (t : String) (src : SourceTable) (tenv : TableEnv)
    (sp tp : ConnParams) (batch_size : Nat) (tgt0 : Option (List Row)) :
    (migrate_table t src tenv sp tp batch_size tgt0).result.table = t := by
  unfold migrate_table
  repeat' split
  all_goals try simp
  all_goals cases h : (copyLoop tenv batch_size src.rows 0 0 0 []).err <;> simp [h]

/-- `rows_migrated` never exceeds the source row count, on any exit path. -/
theorem migrate_table_rows_le (t : String) (src : SourceTable)
    (tenv : TableEnv) (sp tp : ConnParams) (batch_size : Nat)
    (tgt0 : Option (List Row)) :
    (migrate_table t src tenv sp tp batch_size tgt0).result.rows_migrated
      ≤ src.rows.length := by
  have hle := copyLoop_total_le tenv batch_size src.rows 0 0 0 []
  simp only [List.drop_zero, Nat.zero_add] at hle
  unfold migrate_table
  repeat' split
  all_goals try simp
  all_goals cases h : (copyLoop tenv batch_size src.rows 0 0 0 []).err
  all_goals simp [h]
  all_goals omega

/-- When every step before the copy loop succeeds, the outcome of
`migrate_table` is entirely determined by the copy loop: the translated DDL
was executed, the target holds the committed rows, and the result reports the
loop's error and count. -/
theorem migrate_table_clean (t : String) (src : SourceTable) (tenv : TableEnv)
    (sp tp : ConnParams) (batch_size : Nat) (tgt0 : Option (List Row))
    (h1 : tenv.connectSourceErr = none) (h2 : tenv.connectTargetErr = none)
    (h3 : tenv.getDDLErr = none) (h4 : tenv.dropErr = none)
    (h5 : tenv.createErr = none) (h6 : tenv.getColumnsErr = none) :
    migrate_table t src tenv sp tp batch_size tgt0 =
      { result :=
          { table := t,
            success := (copyLoop tenv batch_size src.rows 0 0 0 []).err.isNone,
            rows_migrated := (copyLoop tenv batch_size src.rows 0 0 0 []).total,
            error := (copyLoop tenv batch_size src.rows 0 0 0 []).err,
            time_taken := tenv.elapsed },
        target := some (copyLoop tenv batch_size src.rows 0 0 0 []).target,
        translatedDDL := some (pyReplace (qualChars sp) (qualChars tp) src.ddl),
        fetches := (copyLoop tenv batch_size src.rows 0 0 0 []).fetches } := by
  unfold migrate_table
  rw [h1, h2, h3, h4, h5, h6]
  cases herr : (copyLoop tenv batch_size src.rows 0 0 0 []).err <;> simp [herr]

/-- Whenever a translated statement was recorded, it is the fetched DDL with
the source qualifier substituted by the target qualifier via `str.replace`. -/
theorem migrate_table_translated (t : String) (src : SourceTable)
    (tenv : TableEnv) (sp tp : ConnParams) (batch_size : Nat)
    (tgt0 : Option (List Row)) :
    ∀ ct, (migrate_table t src tenv sp tp batch_size tgt0).translatedDDL
        = some ct →
      ct = pyReplace (qualChars sp) (qualChars tp) src.ddl := by
  intro ct h
  unfold migrate_table at h
  repeat' split at h
  all_goals simp at h
  all_goals try exact h.symm
  all_goals cases herr : (copyLoop tenv batch_size src.rows 0 0 0 []).err <;>
    simp [herr] at h <;> exact h.symm

/-! ## The claims -/

/-- **Claim C10.**  Every `MigrationResult` returned by `migrate_table`
satisfies: the success flag is true if and only if the error field is `None`;
and `rows_migrated` and `time_taken` are set on every exit path — `time_taken`
always carries the duration recorded by the `finally` block, and
`rows_migrated` is always a committed row count, never exceeding the source's
row count. -/
theorem migrate_table_result_wellformed (t : String) (src : SourceTable)
    (tenv : TableEnv) (sp tp : ConnParams) (batch_size : Nat)
    (tgt0 : Option (List Row)) :
    ((migrate_table t src tenv sp tp batch_size tgt0).result.success = true
      ↔ (migrate_table t src tenv sp tp batch_size tgt0).result.error = none)
    ∧ (migrate_table t src tenv sp tp batch_size tgt0).result.time_taken
        = tenv.elapsed
    ∧ (migrate_table t src tenv sp tp batch_size tgt0).result.rows_migrated
        ≤ src.rows.length :=
  ⟨migrate_table_success_iff t src tenv sp tp batch_size tgt0,
    migrate_table_time t src tenv sp tp batch_size tgt0,
    migrate_table_rows_le t src tenv sp tp batch_size tgt0⟩

/-- **Claim C3.**  For a source table with `R` rows (fixed for the run — no
concurrent writers) and a positive batch size, a successful `migrate_table`
result reports `rows_migrated = R`, and the target table ends with exactly
the `R` source rows. -/
theorem migrate_table_roundtrip (t : String) (src : SourceTable)
    (tenv : TableEnv) (sp tp : ConnParams) (batch_size : Nat)
    (tgt0 : Option (List Row)) (hB : 1 ≤ batch_size)
    (hsucc : (migrate_table t src tenv sp tp batch_size tgt0).result.success
        = true) :
    (migrate_table t src tenv sp tp batch_size tgt0).result.rows_migrated
        = src.rows.length
    ∧ (migrate_table t src tenv sp tp batch_size tgt0).target
        = some src.rows := by
  have herr : (migrate_table t src tenv sp tp batch_size tgt0).result.error
      = none :=
    (migrate_table_success_iff t src tenv sp tp batch_size tgt0).mp hsucc
  have h1 : tenv.connectSourceErr = none := by
    by_contra h
    rcases Option.ne_none_iff_exists.mp h with ⟨e, he⟩
    simp [migrate_table, ← he] at hsucc
  have h2 : tenv.connectTargetErr = none := by
    by_contra h
    rcases Option.ne_none_iff_exists.mp h with ⟨e, he⟩
    simp [migrate_table, h1, ← he] at hsucc
  have h3 : tenv.getDDLErr = none := by
    by_contra h
    rcases Option.ne_none_iff_exists.mp h with ⟨e, he⟩
    simp [migrate_table, h1, h2, ← he] at hsucc
  have h4 : tenv.dropErr = none := by
    by_contra h
    rcases Option.ne_none_iff_exists.mp h with ⟨e, he⟩
    simp [migrate_table, h1, h2, h3, ← he] at hsucc
  have h5 : tenv.createErr = none := by
    by_contra h
    rcases Option.ne_none_iff_exists.mp h with ⟨e, he⟩
    simp [migrate_table, h1, h2, h3, h4, ← he] at hsucc
  have h6 : tenv.getColumnsErr = none := by
    by_contra h
    rcases Option.ne_none_iff_exists.mp h with ⟨e, he⟩
    simp [migrate_table, h1, h2, h3, h4, h5, ← he] at hsucc
  rw [migrate_table_clean t src tenv sp tp batch_size tgt0 h1 h2 h3 h4 h5 h6]
    at herr ⊢
  simp only at herr ⊢
  have hcomplete := copyLoop_complete tenv batch_size src.rows hB 0 0 0 [] herr
  simp only [List.drop_zero, Nat.zero_add, List.nil_append] at hcomplete
  simp [hcomplete.1, hcomplete.2]

/-- **Claim C3 — witness.**  The spec's §8 example table (`orders`, 5 rows,
batch size 2) migrates successfully with `rows_migrated = 5` and all five
rows in the target. -/
theorem migrate_table_roundtrip_witness :
    1 ≤ 2
    ∧ (migrate_table "ORDERS" srcOrders tenvClean spC tpC 2 none).result.success
        = true
    ∧ (migrate_table "ORDERS" srcOrders tenvClean spC tpC 2
          none).result.rows_migrated = srcOrders.rows.length
    ∧ (migrate_table "ORDERS" srcOrders tenvClean spC tpC 2 none).target
        = some srcOrders.rows := by
  have hB : 1 ≤ 2 := by omega
  have hsucc : (migrate_table "ORDERS" srcOrders tenvClean spC tpC 2
      none).result.success = true := by
    simp [migrate_table, copyLoop, tenvClean, srcOrders]
  exact ⟨hB, hsucc,
    (migrate_table_roundtrip "ORDERS" srcOrders tenvClean spC tpC 2 none hB
      hsucc).1,
    (migrate_table_roundtrip "ORDERS" srcOrders tenvClean spC tpC 2 none hB
      hsucc).2⟩


/-- **Claim C4.**  For `R` source rows and batch size `B ≥ 1`, a copy phase
in which no round raises performs exactly `⌈R / B⌉` non-empty extract/insert
rounds followed by one empty terminating fetch (the batch sizes being
`roundSizes B R ++ [0]`); every fetch returns at most `B` rows; fetch number
`i` is made at the running offset `i * B`; and the final non-empty round has
`R mod B` rows — or `B` rows when `B` divides `R`. -/
theorem migrate_table_batch_boundary (t : String) (src : SourceTable)
    (tenv : TableEnv) (sp tp : ConnParams) (batch_size : Nat)
    (tgt0 : Option (List Row)) (hB : 1 ≤ batch_size)
    (h1 : tenv.connectSourceErr = none) (h2 : tenv.connectTargetErr = none)
    (h3 : tenv.getDDLErr = none) (h4 : tenv.dropErr = none)
    (h5 : tenv.createErr = none) (h6 : tenv.getColumnsErr = none)
    (hcopy : ∀ r, tenv.fetchErrAtRound r = none
        ∧ tenv.insertErrAtRound r = none) :
    (migrate_table t src tenv sp tp batch_size tgt0).fetches.map Prod.snd
        = roundSizes batch_size src.rows.length ++ [0]
    ∧ (roundSizes batch_size src.rows.length).length
        = (src.rows.length + batch_size - 1) / batch_size
    ∧ (∀ p ∈ (migrate_table t src tenv sp tp batch_size tgt0).fetches,
        p.2 ≤ batch_size)
    ∧ (migrate_table t src tenv sp tp batch_size tgt0).fetches.map Prod.fst
        = (List.range
            ((src.rows.length + batch_size - 1) / batch_size + 1)).map
            (fun i => i * batch_size)
    ∧ (src.rows.length ≠ 0 →
        (roundSizes batch_size src.rows.length).getLast?
          = some (if src.rows.length % batch_size = 0 then batch_size
              else src.rows.length % batch_size)) := by
  have hcf := copyLoop_clean_fetches tenv batch_size src.rows hB hcopy 0 0 0 []
  simp only [List.drop_zero] at hcf
  rcases hcf with ⟨hsnd, hfst⟩
  rw [migrate_table_clean t src tenv sp tp batch_size tgt0 h1 h2 h3 h4 h5 h6]
  simp only
  refine ⟨hsnd, roundSizes_length batch_size hB src.rows.length, ?_, ?_,
    roundSizes_getLast batch_size hB src.rows.length⟩
  · intro p hp
    have hmem : p.2 ∈ (copyLoop tenv batch_size src.rows 0 0 0
        []).fetches.map Prod.snd := List.mem_map_of_mem Prod.snd hp
    rw [hsnd] at hmem
    rcases List.mem_append.mp hmem with hm | hm
    · exact (roundSizes_mem_bounds batch_size hB src.rows.length p.2 hm).2
    · simp at hm
      omega
  · rw [hfst, roundSizes_length batch_size hB src.rows.length]
    simp

/-- **Claim C4 — witness.**  The spec's §8 example: 5 rows at batch size 2
give non-empty rounds of sizes 2, 2, 1 (that is, `⌈5/2⌉ = 3` rounds, the
last of size `5 mod 2 = 1`), then one empty round, at offsets 0, 2, 4, 6. -/
theorem migrate_table_batch_boundary_witness :
    (1 ≤ 2
      ∧ tenvClean.connectSourceErr = none
      ∧ (∀ r, tenvClean.fetchErrAtRound r = none
          ∧ tenvClean.insertErrAtRound r = none))
    ∧ ((migrate_table "ORDERS" srcOrders tenvClean spC tpC 2 none).fetches.map
          Prod.snd = roundSizes 2 srcOrders.rows.length ++ [0]
      ∧ (roundSizes 2 srcOrders.rows.length).length
          = (srcOrders.rows.length + 2 - 1) / 2
      ∧ (∀ p ∈ (migrate_table "ORDERS" srcOrders tenvClean spC tpC 2
            none).fetches, p.2 ≤ 2)
      ∧ (migrate_table "ORDERS" srcOrders tenvClean spC tpC 2
            none).fetches.map Prod.fst
          = (List.range ((srcOrders.rows.length + 2 - 1) / 2 + 1)).map
              (fun i => i * 2)
      ∧ (srcOrders.rows.length ≠ 0 →
          (roundSizes 2 srcOrders.rows.length).getLast?
            = some (if srcOrders.rows.length % 2 = 0 then 2
                else srcOrders.rows.length % 2))) := by
  refine ⟨⟨by omega, rfl, fun r => ⟨rfl, rfl⟩⟩, ?_⟩
  exact migrate_table_batch_boundary "ORDERS" srcOrders tenvClean spC tpC 2
    none (by omega) rfl rfl rfl rfl rfl rfl (fun r => ⟨rfl, rfl⟩)

/-- **Claim C7.**  Whatever table-creation statement `migrate_table` builds
for the target is the fetched source definition with every occurrence of the
source qualifier `database.schema` replaced by the target qualifier, and is
otherwise character-for-character identical: splitting the fetched definition
at the source qualifier yields qualifier-free segments (third conjunct) which
re-glued with the source qualifier give back the fetched definition
(second conjunct) and re-glued with the target qualifier give exactly the
translated statement (first conjunct). -/
theorem migrate_table_translation_exact (t : String) (src : SourceTable)
    (tenv : TableEnv) (sp tp : ConnParams) (batch_size : Nat)
    (tgt0 : Option (List Row)) (ct : List Char)
    (hct : (migrate_table t src tenv sp tp batch_size tgt0).translatedDDL
        = some ct) :
    ct = joinSep (qualChars tp) (pySplit (qualChars sp) src.ddl)
    ∧ joinSep (qualChars sp) (pySplit (qualChars sp) src.ddl) = src.ddl
    ∧ ∀ seg ∈ pySplit (qualChars sp) src.ddl, ¬ qualChars sp <:+: seg := by
  have hpat := qualChars_ne_nil sp
  have h1 := migrate_table_translated t src tenv sp tp batch_size tgt0 ct hct
  refine ⟨?_, joinSep_pySplit (qualChars sp) hpat src.ddl,
    pySplit_not_infix (qualChars sp) hpat src.ddl⟩
  rw [h1, pyReplace_eq_joinSep (qualChars sp) (qualChars tp) hpat src.ddl]

/-- **Claim C7 — witness.**  The fixture run translates the `ORDERS`
definition: its recorded create statement is the `SD.SS`-split of the fetched
DDL re-glued with `TD.TS`. -/
theorem migrate_table_translation_exact_witness :
    ((migrate_table "ORDERS" srcOrders tenvClean spC tpC 2 none).translatedDDL
        = some (pyReplace (qualChars spC) (qualChars tpC) srcOrders.ddl))
    ∧ (pyReplace (qualChars spC) (qualChars tpC) srcOrders.ddl
        = joinSep (qualChars tpC) (pySplit (qualChars spC) srcOrders.ddl)
      ∧ joinSep (qualChars spC) (pySplit (qualChars spC) srcOrders.ddl)
          = srcOrders.ddl
      ∧ ∀ seg ∈ pySplit (qualChars spC) srcOrders.ddl,
          ¬ qualChars spC <:+: seg) := by
  have hct : (migrate_table "ORDERS" srcOrders tenvClean spC tpC 2
      none).translatedDDL
        = some (pyReplace (qualChars spC) (qualChars tpC) srcOrders.ddl) := by
    rw [migrate_table_clean "ORDERS" srcOrders tenvClean spC tpC 2 none
      rfl rfl rfl rfl rfl rfl]
  exact ⟨hct, migrate_table_translation_exact "ORDERS" srcOrders tenvClean
    spC tpC 2 none (pyReplace (qualChars spC) (qualChars tpC) srcOrders.ddl)
    hct⟩

/-- **Claim C8 — counterexample.**  The claim says a missing source qualifier
is *signalled* as a non-fatal, logged `NoOpTranslation` rather than the run
proceeding silently with the unmodified definition.  The code has no such
signal: on a definition without the `SD.SS` qualifier the run keeps the
definition unchanged, reports success, and records no error — nothing
distinguishes the no-op translation. -/
theorem migrate_table_noop_not_signalled :
    (migrate_table "T" srcNoQual tenvClean spC tpC 2 none).translatedDDL
        = some srcNoQual.ddl
    ∧ (migrate_table "T" srcNoQual tenvClean spC tpC 2 none).result.success
        = true
    ∧ (migrate_table "T" srcNoQual tenvClean spC tpC 2 none).result.error
        = none := by
  have hni : ¬ qualChars spC <:+: srcNoQual.ddl := by decide
  have hid := pyReplace_of_not_infix (qualChars spC) (qualChars tpC)
    (qualChars_ne_nil spC) srcNoQual.ddl hni
  rw [migrate_table_clean "T" srcNoQual tenvClean spC tpC 2 none
    rfl rfl rfl rfl rfl rfl]
  refine ⟨by rw [hid], ?_, ?_⟩
  · simp [copyLoop, tenvClean, srcNoQual]
  · simp [copyLoop, tenvClean, srcNoQual]

/-- **Claim C8 (amended).**  When the expected source qualifier does not
occur in the fetched definition, `migrate_table` signals nothing and proceeds
silently: the translation is the identity, so the statement recorded for the
target is the unmodified source definition. -/
theorem migrate_table_noop_translation (t : String) (src : SourceTable)
    (tenv : TableEnv) (sp tp : ConnParams) (batch_size : Nat)
    (tgt0 : Option (List Row))
    (hni : ¬ qualChars sp <:+: src.ddl) :
    ∀ ct, (migrate_table t src tenv sp tp batch_size tgt0).translatedDDL
        = some ct → ct = src.ddl := by
  intro ct hct
  rw [migrate_table_translated t src tenv sp tp batch_size tgt0 ct hct]
  exact pyReplace_of_not_infix (qualChars sp) (qualChars tp)
    (qualChars_ne_nil sp) src.ddl hni

/-- **Claim C8 (amended) — witness.**  The qualifier-free fixture definition
passes through the translator unchanged. -/
theorem migrate_table_noop_translation_witness :
    (¬ qualChars spC <:+: srcNoQual.ddl
      ∧ (migrate_table "T" srcNoQual tenvClean spC tpC 2 none).translatedDDL
          = some (pyReplace (qualChars spC) (qualChars tpC) srcNoQual.ddl))
    ∧ pyReplace (qualChars spC) (qualChars tpC) srcNoQual.ddl
        = srcNoQual.ddl := by
  have hni : ¬ qualChars spC <:+: srcNoQual.ddl := by decide
  have hct : (migrate_table "T" srcNoQual tenvClean spC tpC 2
      none).translatedDDL
        = some (pyReplace (qualChars spC) (qualChars tpC) srcNoQual.ddl) := by
    rw [migrate_table_clean "T" srcNoQual tenvClean spC tpC 2 none
      rfl rfl rfl rfl rfl rfl]
  exact ⟨⟨hni, hct⟩, migrate_table_noop_translation "T" srcNoQual tenvClean
    spC tpC 2 none hni (pyReplace (qualChars spC) (qualChars tpC)
      srcNoQual.ddl) hct⟩

/-- A failed source connection is captured into the result: success false,
the exception text stored. -/
theorem migrate_table_connect_fail (t : String) (src : SourceTable)
    (tenv : TableEnv) (sp tp : ConnParams) (batch_size : Nat)
    (tgt0 : Option (List Row)) (m : String)
    (hm : tenv.connectSourceErr = some m) :
    (migrate_table t src tenv sp tp batch_size tgt0).result.success = false
    ∧ (migrate_table t src tenv sp tp batch_size tgt0).result.error
        = some m := by
  unfold migrate_table
  rw [hm]
  simp

/-- The table names of the collected results are exactly the catalog, in
catalog order. -/
theorem migrate_all_tables_names (env : Env) (sp tp : ConnParams)
    (batch_size max_workers : Nat) (sched : List Nat)
    (rs : List MigrationResult)
    (h : migrate_all_tables env sp tp batch_size max_workers sched
        = Except.ok rs) :
    rs.map MigrationResult.table = env.catalog := by
  cases hcat : env.catalogErr with
  | some e =>
    unfold migrate_all_tables get_tables at h
    rw [hcat] at h
    simp at h
  | none =>
    unfold migrate_all_tables get_tables at h
    rw [hcat] at h
    have hrs := (Except.ok.inj h).symm
    rw [hrs, List.map_map]
    conv_rhs => rw [← List.map_id env.catalog]
    apply List.map_congr_left
    intro t ht
    simp [migrate_table_name]

/-- **Claim C1.**  Per-table errors never escape the orchestrator: whatever
faults the per-table environments inject, `migrate_all_tables` returns
`Except.ok` with one result per catalog table; each result is produced by
that table's own `migrate_table` run alone (fault isolation), carries that
table's name, and reports success exactly when no error text was captured;
and a table whose source connection raises gets exactly that exception's
text captured in its own result. -/
theorem migrate_all_isolates_failures (env : Env) (sp tp : ConnParams)
    (batch_size max_workers : Nat) (sched : List Nat)
    (hcat : env.catalogErr = none) :
    migrate_all_tables env sp tp batch_size max_workers sched
      = Except.ok (env.catalog.map fun t =>
          (migrate_table t (env.sourceTable t) (env.tableEnv t) sp tp
            batch_size (env.initialTarget t)).result)
    ∧ ∀ rs, migrate_all_tables env sp tp batch_size max_workers sched
          = Except.ok rs →
        rs.length = env.catalog.length
        ∧ (∀ i (hi : i < rs.length) (hc : i < env.catalog.length),
            rs.get ⟨i, hi⟩
              = (migrate_table (env.catalog.get ⟨i, hc⟩)
                  (env.sourceTable (env.catalog.get ⟨i, hc⟩))
                  (env.tableEnv (env.catalog.get ⟨i, hc⟩)) sp tp batch_size
                  (env.initialTarget (env.catalog.get ⟨i, hc⟩))).result
            ∧ (rs.get ⟨i, hi⟩).table = env.catalog.get ⟨i, hc⟩
            ∧ ((rs.get ⟨i, hi⟩).success = true
                ↔ (rs.get ⟨i, hi⟩).error = none))
        ∧ (∀ i (hi : i < rs.length) (hc : i < env.catalog.length)
            (m : String),
            (env.tableEnv (env.catalog.get ⟨i, hc⟩)).connectSourceErr
                = some m →
            (rs.get ⟨i, hi⟩).success = false
            ∧ (rs.get ⟨i, hi⟩).error = some m) := by
  have hrun : migrate_all_tables env sp tp batch_size max_workers sched
      = Except.ok (env.catalog.map fun t =>
          (migrate_table t (env.sourceTable t) (env.tableEnv t) sp tp
            batch_size (env.initialTarget t)).result) := by
    unfold migrate_all_tables get_tables
    rw [hcat]
  refine ⟨hrun, ?_⟩
  intro rs h
  have hrs : rs = env.catalog.map fun t =>
      (migrate_table t (env.sourceTable t) (env.tableEnv t) sp tp batch_size
        (env.initialTarget t)).result := by
    rw [hrun] at h
    exact (Except.ok.inj h).symm
  subst hrs
  have hget : ∀ i (hi : i < (env.catalog.map fun t =>
      (migrate_table t (env.sourceTable t) (env.tableEnv t) sp tp batch_size
        (env.initialTarget t)).result).length) (hc : i < env.catalog.length),
      (env.catalog.map fun t =>
        (migrate_table t (env.sourceTable t) (env.tableEnv t) sp tp batch_size
          (env.initialTarget t)).result).get ⟨i, hi⟩
        = (migrate_table (env.catalog.get ⟨i, hc⟩)
            (env.sourceTable (env.catalog.get ⟨i, hc⟩))
            (env.tableEnv (env.catalog.get ⟨i, hc⟩)) sp tp batch_size
            (env.initialTarget (env.catalog.get ⟨i, hc⟩))).result := by
    intro i hi hc
    simp [List.get_eq_getElem]
  refine ⟨by simp, ?_, ?_⟩
  · intro i hi hc
    refine ⟨hget i hi hc, ?_, ?_⟩
    · rw [hget i hi hc]
      exact migrate_table_name _ _ _ _ _ _ _
    · rw [hget i hi hc]
      exact migrate_table_success_iff _ _ _ _ _ _ _
  · intro i hi hc m hm
    rw [hget i hi hc]
    exact migrate_table_connect_fail _ _ _ _ _ _ _ m hm

/-- **Claim C1 — witness.**  In the fixture run the second table's source
connection raises, yet the orchestrator returns `ok` with both results, and
each table's result comes from its own run. -/
theorem migrate_all_isolates_failures_witness :
    envW.catalogErr = none
    ∧ (migrate_all_tables envW spC tpC 2 4 [0, 1]
        = Except.ok (envW.catalog.map fun t =>
            (migrate_table t (envW.sourceTable t) (envW.tableEnv t) spC tpC 2
              (envW.initialTarget t)).result)
      ∧ ∀ rs, migrate_all_tables envW spC tpC 2 4 [0, 1] = Except.ok rs →
          rs.length = envW.catalog.length
          ∧ (∀ i (hi : i < rs.length) (hc : i < envW.catalog.length),
              rs.get ⟨i, hi⟩
                = (migrate_table (envW.catalog.get ⟨i, hc⟩)
                    (envW.sourceTable (envW.catalog.get ⟨i, hc⟩))
                    (envW.tableEnv (envW.catalog.get ⟨i, hc⟩)) spC tpC 2
                    (envW.initialTarget (envW.catalog.get ⟨i, hc⟩))).result
              ∧ (rs.get ⟨i, hi⟩).table = envW.catalog.get ⟨i, hc⟩
              ∧ ((rs.get ⟨i, hi⟩).success = true
                  ↔ (rs.get ⟨i, hi⟩).error = none))
          ∧ (∀ i (hi : i < rs.length) (hc : i < envW.catalog.length)
              (m : String),
              (envW.tableEnv (envW.catalog.get ⟨i, hc⟩)).connectSourceErr
                  = some m →
              (rs.get ⟨i, hi⟩).success = false
              ∧ (rs.get ⟨i, hi⟩).error = some m)) :=
  ⟨rfl, migrate_all_isolates_failures envW spC tpC 2 4 [0, 1] rfl⟩

/-- **Claim C2.**  For a run whose catalog listing succeeded and is free of
duplicates, the collected results are exactly one per table: equal length,
the same table-name membership, and no duplicated result names. -/
theorem migrate_all_results_complete (env : Env) (sp tp : ConnParams)
    (batch_size max_workers : Nat) (sched : List Nat)
    (rs : List MigrationResult) (tables : List String)
    (hrun : migrate_all_tables env sp tp batch_size max_workers sched
        = Except.ok rs)
    (htab : get_tables env sp = Except.ok tables)
    (hnodup : tables.Nodup) :
    rs.length = tables.length
    ∧ (∀ n, n ∈ rs.map MigrationResult.table ↔ n ∈ tables)
    ∧ (rs.map MigrationResult.table).Nodup := by
  have hnames := migrate_all_tables_names env sp tp batch_size max_workers
    sched rs hrun
  have htables : tables = env.catalog := by
    cases hcat : env.catalogErr with
    | some e =>
      unfold get_tables at htab
      rw [hcat] at htab
      simp at htab
    | none =>
      unfold get_tables at htab
      rw [hcat] at htab
      exact (Except.ok.inj htab).symm
  subst htables
  refine ⟨?_, ?_, ?_⟩
  · rw [← hnames, List.length_map]
  · intro n
    rw [hnames]
  · rw [hnames]
    exact hnodup

/-- **Claim C2 — witness.**  The two-table fixture run returns two results
whose name set is exactly the catalog. -/
theorem migrate_all_results_complete_witness :
    (migrate_all_tables envOk spC tpC 2 4 [0, 1]
        = Except.ok (migrateAllSpec envOk.catalog envOk spC tpC 2)
      ∧ get_tables envOk spC = Except.ok envOk.catalog
      ∧ envOk.catalog.Nodup)
    ∧ ((migrateAllSpec envOk.catalog envOk spC tpC 2).length
        = envOk.catalog.length
      ∧ (∀ n, n ∈ (migrateAllSpec envOk.catalog envOk spC tpC 2).map
            MigrationResult.table ↔ n ∈ envOk.catalog)
      ∧ ((migrateAllSpec envOk.catalog envOk spC tpC 2).map
          MigrationResult.table).Nodup) :=
  ⟨⟨rfl, rfl, by decide⟩,
    migrate_all_results_complete envOk spC tpC 2 4 [0, 1]
      (migrateAllSpec envOk.catalog envOk spC tpC 2) envOk.catalog rfl rfl
      (by decide)⟩

/-- **Claim C5 — counterexample.**  The claim says `MigrateAll` takes a set
of table names as input and returns one result for each of those names and
no others.  `migrate_all_tables` has no table-name parameter: with the
caller's intended selection `["ORDERS"]`, the run over a source whose
catalog is `["ORDERS", "CUSTOMERS"]` still migrates both tables — it equals
the spec-described orchestrator applied to the *catalog*, not to the
selection. -/
theorem migrate_all_ignores_selection :
    migrate_all_tables envW spC tpC 2 4 [0]
        = Except.ok (migrateAllSpec ["ORDERS", "CUSTOMERS"] envW spC tpC 2)
    ∧ migrate_all_tables envW spC tpC 2 4 [0]
        ≠ Except.ok (migrateAllSpec ["ORDERS"] envW spC tpC 2) := by
  constructor
  · rfl
  · intro h
    have h2 := Except.ok.inj h
    have h3 := congrArg List.length h2
    simp [migrate_all_tables, get_tables, envW, migrateAllSpec] at h3

/-- **Claim C5 (amended).**  `migrate_all_tables` takes no list of table
names: it derives the tables to migrate from the source schema's catalog via
`get_tables`, and returns exactly the per-table results of the
spec-described orchestrator applied to that catalog — one result per catalog
table and no others. -/
theorem migrate_all_runs_catalog (env : Env) (sp tp : ConnParams)
    (batch_size max_workers : Nat) (sched : List Nat)
    (tables : List String)
    (htab : get_tables env sp = Except.ok tables) :
    migrate_all_tables env sp tp batch_size max_workers sched
      = Except.ok (migrateAllSpec tables env sp tp batch_size) := by
  unfold migrate_all_tables migrateAllSpec
  rw [htab]

/-- **Claim C5 (amended) — witness.** -/
theorem migrate_all_runs_catalog_witness :
    get_tables envW spC = Except.ok envW.catalog
    ∧ migrate_all_tables envW spC tpC 2 4 [0]
        = Except.ok (migrateAllSpec envW.catalog envW spC tpC 2) :=
  ⟨rfl, migrate_all_runs_catalog envW spC tpC 2 4 [0] envW.catalog rfl⟩

/-- **Claim C6 — counterexample.**  The claim says the order in which the
orchestrator appends results is not deterministic — that it depends on the
completion order of the concurrent tasks, not on submission order.  It does
not: the code iterates the `future_to_table` dict, whose order is insertion
(= submission) order, and `future.result()` merely waits.  Swapping the
completion order of the two fixture tasks leaves the output identical, and
the output lists the results exactly in submission (catalog) order. -/
theorem migrate_all_order_not_completion :
    migrate_all_tables envOk spC tpC 2 4 [1, 0]
        = migrate_all_tables envOk spC tpC 2 4 [0, 1]
    ∧ migrate_all_tables envOk spC tpC 2 4 [1, 0]
        = Except.ok (migrateAllSpec envOk.catalog envOk spC tpC 2)
    ∧ (migrateAllSpec envOk.catalog envOk spC tpC 2).map
        MigrationResult.table = ["ORDERS", "CUSTOMERS"] := by
  refine ⟨rfl, rfl, ?_⟩
  simp [migrateAllSpec, envOk, migrate_table_name]

/-- **Claim C6 (amended).**  The output of `migrate_all_tables` is fully
deterministic given the environment: it does not depend on the thread
completion order (nor on the worker-pool size), and the results appear in
submission order — the catalog order — not completion order.  Only the
spec's *set* half survives: one result per requested table. -/
theorem migrate_all_order_submission (env : Env) (sp tp : ConnParams)
    (batch_size max_workers max_workers2 : Nat) (sched sched2 : List Nat) :
    migrate_all_tables env sp tp batch_size max_workers sched
        = migrate_all_tables env sp tp batch_size max_workers2 sched2
    ∧ (∀ rs, migrate_all_tables env sp tp batch_size max_workers sched
          = Except.ok rs →
        rs.map MigrationResult.table = env.catalog) := by
  refine ⟨rfl, ?_⟩
  intro rs h
  exact migrate_all_tables_names env sp tp batch_size max_workers sched rs h

/-- **Claim C6 (amended) — witness.** -/
theorem migrate_all_order_submission_witness :
    migrate_all_tables envOk spC tpC 2 4 [1, 0]
        = migrate_all_tables envOk spC tpC 2 8 [0, 1]
    ∧ (∀ rs, migrate_all_tables envOk spC tpC 2 4 [1, 0] = Except.ok rs →
        rs.map MigrationResult.table = envOk.catalog) :=
  migrate_all_order_submission envOk spC tpC 2 4 8 [1, 0] [0, 1]

/-- **Claim C9 — counterexample.**  The claim states that on a mid-run
failure (during fetch, translation, DDL, or insertion) the target table
contains only the batches committed before the failure.  When the DDL phase
fails — here the `DROP TABLE IF EXISTS` raises — over a pre-existing target
table, zero batches were committed, yet the target still holds its prior
row: the run never touched it, so the target does not contain *only* this
run's committed batches. -/
theorem migrate_table_ddl_failure_keeps_target :
    (migrate_table "ORDERS" srcOrders tenvDrop spC tpC 2
        (some [["old"]])).result.success = false
    ∧ (migrate_table "ORDERS" srcOrders tenvDrop spC tpC 2
        (some [["old"]])).result.error = some "002003: SQL compilation error"
    ∧ (migrate_table "ORDERS" srcOrders tenvDrop spC tpC 2
        (some [["old"]])).result.rows_migrated = 0
    ∧ (migrate_table "ORDERS" srcOrders tenvDrop spC tpC 2
        (some [["old"]])).target = some [["old"]]
    ∧ some [["old"]] ≠ (some [] : Option (List Row)) := by
  refine ⟨?_, ?_, ?_, ?_, by simp⟩ <;>
    simp [migrate_table, tenvDrop, tenvClean]

/-- **Claim C9 (amended).**  Whenever a table's migration fails mid-run, the
result reports `rows_migrated` equal to the cumulative count of rows
accepted through the last successfully committed round — zero if no round
committed, in particular on every failure before the copy loop (connection
to either side, the `GET_DDL` fetch of the translation phase, `DROP`,
`CREATE`, column listing) — and the target reflects exactly the committed
work: a failure before the `DROP` leaves the target's prior contents
untouched, a `CREATE` failure leaves the target table dropped, and from
table creation onward the target contains exactly the batches committed
before the failure (`rows.take (k * batch_size)` for a failure at copy
round `k`). -/
theorem migrate_table_failure_accounting (t : String) (src : SourceTable)
    (tenv : TableEnv) (sp tp : ConnParams) (batch_size : Nat)
    (tgt0 : Option (List Row)) (k : Nat) (e : String)
    (hB : 1 ≤ batch_size) :
    (tenv.connectSourceErr = some e →
      (migrate_table t src tenv sp tp batch_size tgt0).result.success = false
      ∧ (migrate_table t src tenv sp tp batch_size tgt0).result.error = some e
      ∧ (migrate_table t src tenv sp tp batch_size
          tgt0).result.rows_migrated = 0
      ∧ (migrate_table t src tenv sp tp batch_size tgt0).target = tgt0)
    ∧ (tenv.connectSourceErr = none → tenv.connectTargetErr = some e →
      (migrate_table t src tenv sp tp batch_size tgt0).result.success = false
      ∧ (migrate_table t src tenv sp tp batch_size tgt0).result.error = some e
      ∧ (migrate_table t src tenv sp tp batch_size
          tgt0).result.rows_migrated = 0
      ∧ (migrate_table t src tenv sp tp batch_size tgt0).target = tgt0)
    ∧ (tenv.connectSourceErr = none → tenv.connectTargetErr = none →
      tenv.getDDLErr = some e →
      (migrate_table t src tenv sp tp batch_size tgt0).result.success = false
      ∧ (migrate_table t src tenv sp tp batch_size tgt0).result.error = some e
      ∧ (migrate_table t src tenv sp tp batch_size
          tgt0).result.rows_migrated = 0
      ∧ (migrate_table t src tenv sp tp batch_size tgt0).target = tgt0)
    ∧ (tenv.connectSourceErr = none → tenv.connectTargetErr = none →
      tenv.getDDLErr = none → tenv.dropErr = some e →
      (migrate_table t src tenv sp tp batch_size tgt0).result.success = false
      ∧ (migrate_table t src tenv sp tp batch_size tgt0).result.error = some e
      ∧ (migrate_table t src tenv sp tp batch_size
          tgt0).result.rows_migrated = 0
      ∧ (migrate_table t src tenv sp tp batch_size tgt0).target = tgt0)
    ∧ (tenv.connectSourceErr = none → tenv.connectTargetErr = none →
      tenv.getDDLErr = none → tenv.dropErr = none →
      tenv.createErr = some e →
      (migrate_table t src tenv sp tp batch_size tgt0).result.success = false
      ∧ (migrate_table t src tenv sp tp batch_size tgt0).result.error = some e
      ∧ (migrate_table t src tenv sp tp batch_size
          tgt0).result.rows_migrated = 0
      ∧ (migrate_table t src tenv sp tp batch_size tgt0).target = none)
    ∧ (tenv.connectSourceErr = none → tenv.connectTargetErr = none →
      tenv.getDDLErr = none → tenv.dropErr = none → tenv.createErr = none →
      tenv.getColumnsErr = some e →
      (migrate_table t src tenv sp tp batch_size tgt0).result.success = false
      ∧ (migrate_table t src tenv sp tp batch_size tgt0).result.error = some e
      ∧ (migrate_table t src tenv sp tp batch_size
          tgt0).result.rows_migrated = 0
      ∧ (migrate_table t src tenv sp tp batch_size tgt0).target = some [])
    ∧ (tenv.connectSourceErr = none → tenv.connectTargetErr = none →
      tenv.getDDLErr = none → tenv.dropErr = none → tenv.createErr = none →
      tenv.getColumnsErr = none →
      (∀ j, j < k → tenv.fetchErrAtRound j = none
          ∧ tenv.insertErrAtRound j = none) →
      (∀ j, j < k → j * batch_size < src.rows.length) →
      (tenv.fetchErrAtRound k = some e ∨
        (tenv.fetchErrAtRound k = none ∧ tenv.insertErrAtRound k = some e
          ∧ k * batch_size < src.rows.length)) →
      (migrate_table t src tenv sp tp batch_size tgt0).result.success = false
      ∧ (migrate_table t src tenv sp tp batch_size tgt0).result.error = some e
      ∧ (migrate_table t src tenv sp tp batch_size
          tgt0).result.rows_migrated
          = min (k * batch_size) src.rows.length
      ∧ (migrate_table t src tenv sp tp batch_size tgt0).target
          = some (src.rows.take (k * batch_size))) := by
  refine ⟨?_, ?_, ?_, ?_, ?_, ?_, ?_⟩
  · intro h1
    unfold migrate_table
    rw [h1]
    simp
  · intro h1 h2
    unfold migrate_table
    rw [h1, h2]
    simp
  · intro h1 h2 h3
    unfold migrate_table
    rw [h1, h2, h3]
    simp
  · intro h1 h2 h3 h4
    unfold migrate_table
    rw [h1, h2, h3, h4]
    simp
  · intro h1 h2 h3 h4 h5
    unfold migrate_table
    rw [h1, h2, h3, h4, h5]
    simp
  · intro h1 h2 h3 h4 h5 h6
    unfold migrate_table
    rw [h1, h2, h3, h4, h5, h6]
    simp
  · intro h1 h2 h3 h4 h5 h6 hclean hbound hfail
    have hclean0 : ∀ j, j < k → tenv.fetchErrAtRound (0 + j) = none
        ∧ tenv.insertErrAtRound (0 + j) = none := by
      intro j hj
      rw [Nat.zero_add]
      exact hclean j hj
    have hbound0 : ∀ j, j < k → 0 + j * batch_size < src.rows.length := by
      intro j hj
      rw [Nat.zero_add]
      exact hbound j hj
    have hfail0 : tenv.fetchErrAtRound (0 + k) = some e ∨
        (tenv.fetchErrAtRound (0 + k) = none
          ∧ tenv.insertErrAtRound (0 + k) = some e
          ∧ 0 + k * batch_size < src.rows.length) := by
      rw [Nat.zero_add]
      rcases hfail with hf | hf
      · exact Or.inl hf
      · exact Or.inr ⟨hf.1, hf.2.1, by omega⟩
    have hfa := copyLoop_fail_at tenv batch_size src.rows e hB k 0 0 0 []
      hclean0 hbound0 hfail0
    rcases hfa with ⟨he, ht, htg⟩
    rw [migrate_table_clean t src tenv sp tp batch_size tgt0
      h1 h2 h3 h4 h5 h6]
    simp only [he, ht, htg]
    simp [List.drop_zero]

/-- **Claim C9 (amended) — witness.**  Both regimes at concrete inputs: with
5 source rows, batch size 2 and an insert error at round 1, exactly round
0's two rows are committed, counted, and present in the target; with a
`DROP` failure over a pre-existing target row, zero rows are counted and the
prior contents survive untouched. -/
theorem migrate_table_failure_accounting_witness :
    (1 ≤ 2
      ∧ (∀ j, j < 1 → tenvFail.fetchErrAtRound j = none
          ∧ tenvFail.insertErrAtRound j = none)
      ∧ (∀ j, j < 1 → j * 2 < srcOrders.rows.length)
      ∧ (tenvFail.fetchErrAtRound 1 = none
          ∧ tenvFail.insertErrAtRound 1 = some "001003: SQL compilation error"
          ∧ 1 * 2 < srcOrders.rows.length)
      ∧ tenvDrop.dropErr = some "002003: SQL compilation error")
    ∧ ((migrate_table "ORDERS" srcOrders tenvFail spC tpC 2
          none).result.success = false
      ∧ (migrate_table "ORDERS" srcOrders tenvFail spC tpC 2
          none).result.error = some "001003: SQL compilation error"
      ∧ (migrate_table "ORDERS" srcOrders tenvFail spC tpC 2
            none).result.rows_migrated = min (1 * 2) srcOrders.rows.length
      ∧ (migrate_table "ORDERS" srcOrders tenvFail spC tpC 2 none).target
          = some (srcOrders.rows.take (1 * 2)))
    ∧ ((migrate_table "ORDERS" srcOrders tenvDrop spC tpC 2
          (some [["old"]])).result.rows_migrated = 0
      ∧ (migrate_table "ORDERS" srcOrders tenvDrop spC tpC 2
          (some [["old"]])).target = some [["old"]]) := by
  have H := migrate_table_failure_accounting "ORDERS" srcOrders tenvFail spC
    tpC 2 none 1 "001003: SQL compilation error" (by omega)
  have H7 := H.2.2.2.2.2.2 rfl rfl rfl rfl rfl rfl (by decide) (by decide)
    (Or.inr (by decide))
  have H2 := migrate_table_failure_accounting "ORDERS" srcOrders tenvDrop spC
    tpC 2 (some [["old"]]) 0 "002003: SQL compilation error" (by omega)
  have H4 := H2.2.2.2.1 rfl rfl rfl rfl
  exact ⟨⟨by omega, by decide, by decide, by decide, rfl⟩,
    ⟨H7.1, H7.2.1, H7.2.2.1, H7.2.2.2⟩, ⟨H4.2.2.1, H4.2.2.2⟩⟩
